import Mathlib

/-!
Verification of the Navine Compressor backend core (src/server/server.js).

The JavaScript source is shallowly embedded below.  JavaScript numbers are
modelled as exact rationals (ℚ); the program only performs arithmetic on
values far below 2^53, where IEEE doubles behave like exact rationals on
the integer grid used here, and no claim depends on rounding of doubles.
Strings are modelled as Lean `String`.  The in-memory job map (`jobs`) is
modelled as an association list, and `setJob`'s object-spread merge as a
field-by-field merge where a present patch field overrides the current one.
-/

/-- Job lifecycle states (server.js lines 33–42). -/
inductive Status
| queued
| running
| done
| error
deriving DecidableEq

/-- A job record / patch.  `setJob` merges partial objects, so every field is
optional; a freshly mentioned job starts as the empty object (server.js
lines 44–47).  The same shape serves as the patch type, mirroring the
object-spread `{ ...cur, ...patch }`. -/
structure Job where
  status : Option Status := none
  percent : Option ℚ := none
  message : Option String := none
  inputPath : Option String := none
  outputPath : Option String := none
  outputBytes : Option ℚ := none
  error : Option String := none
  createdAt : Option ℚ := none
deriving DecidableEq

/-- A patch is a partial job record, as passed to `setJob`. -/
abbrev Patch := Job

/-- The empty object `{}` used when a job id is not yet present. -/
def emptyJob : Job := {}

/-- One field of the object-spread merge: a field present in the patch
overrides the current value. -/
def mergeField {α : Type} (p cur : Option α) : Option α :=
  match p with
  | some v => some v
  | none => cur

/-- `setJob`'s merge `{ ...cur, ...patch }` (server.js lines 44–47). -/
def applyPatch (cur p : Job) : Job :=
  { status := mergeField p.status cur.status
    percent := mergeField p.percent cur.percent
    message := mergeField p.message cur.message
    inputPath := mergeField p.inputPath cur.inputPath
    outputPath := mergeField p.outputPath cur.outputPath
    outputBytes := mergeField p.outputBytes cur.outputBytes
    error := mergeField p.error cur.error
    createdAt := mergeField p.createdAt cur.createdAt }

/-- `clamp(n, a, b) = Math.max(a, Math.min(b, n))` (server.js line 106). -/
def clamp (n a b : ℚ) : ℚ := max a (min b n)

/-- `computeBitrates` (server.js lines 133–146).  Returns the `videoKbps`
field of the result object.  JS `0.70` is the exact rational 7/10 here;
`Math.floor` is the integer floor. -/
def computeBitrates (targetMB durationSec audioKbps : ℚ) : ℚ :=
  let totalBits := targetMB * 1024 * 1024 * 8
  let audioBits := audioKbps * 1000 * durationSec
  let videoBits := max (totalBits - audioBits) (totalBits * (7 / 10))
  let videoBps := videoBits / durationSec
  clamp ((⌊videoBps / 1000⌋ : ℤ) : ℚ) 200 50000

/-- Result of `autoSettings` (server.js lines 112–127). -/
structure AutoSettings where
  preset : String
  scaleFilter : Option String
deriving DecidableEq

/-- `autoSettings` (server.js lines 112–127).  `Math.max(width||0, height||0)`
is `max width height` on ℚ (`x || 0` is the identity on numbers other than
NaN, and 0 maps to 0). -/
def autoSettings (width height durationSec : ℚ) : AutoSettings :=
  let maxDim := max width height
  let preset :=
    if durationSec > 30 * 60 then "veryfast"
    else if durationSec > 15 * 60 then "fast"
    else if durationSec > 7 * 60 then "medium"
    else "slow"
  let scaleFilter := if maxDim ≥ 3840 then some "scale=1920:-2" else none
  { preset := preset, scaleFilter := scaleFilter }

/-- Speed rank of an x264/x265 preset tier used by `autoSettings`: larger
means a faster (cheaper) encode. -/
def presetSpeed (p : String) : ℕ :=
  if p = "veryfast" then 3
  else if p = "fast" then 2
  else if p = "medium" then 1
  else 0

/-- The container-level `format.duration` field of an ffprobe report, as seen
by `parseDurationSeconds`: absent, a value whose `Number()` conversion is
NaN, or a numeric value. -/
inductive DurationField
| absent
| nonNumeric
| numeric (q : ℚ)
deriving DecidableEq

/-- `parseDurationSeconds` (server.js lines 97–100):
`Number(probe?.format?.duration || 0)` followed by
`Number.isFinite(d) && d > 0 ? d : 0`. -/
def parseDurationSeconds (d : DurationField) : ℚ :=
  match d with
  | .absent => 0
  | .nonNumeric => 0
  | .numeric q => if q > 0 then q else 0

/-- Greedy run of decimal digits (the `\d+` of the progress regex),
accumulating the decimal value JS `Number()` would give the group. -/
def readDigits : List Char → ℕ → ℕ × List Char
  | c :: cs, acc => if c.isDigit then readDigits cs (acc * 10 + (c.toNat - 48)) else (acc, c :: cs)
  | [], acc => (acc, [])

/-- `\d+`: at least one digit, taken greedily. -/
def readDigits1 (s : List Char) : Option (ℕ × List Char) :=
  match s with
  | c :: cs => if c.isDigit then some (readDigits cs (c.toNat - 48)) else none
  | [] => none

/-- Attempt to match `time=(\d+):(\d+):(\d+)\.(\d+)` at the head of the
character list, returning the four captured groups as numbers. -/
def matchTimeAt (s : List Char) : Option (ℕ × ℕ × ℕ × ℕ) :=
  match s with
  | 't' :: 'i' :: 'm' :: 'e' :: '=' :: rest =>
    match readDigits1 rest with
    | some (hh, ':' :: r1) =>
      match readDigits1 r1 with
      | some (mm, ':' :: r2) =>
        match readDigits1 r2 with
        | some (ss, '.' :: r3) =>
          match readDigits1 r3 with
          | some (cs, _) => some (hh, mm, ss, cs)
          | none => none
        | _ => none
      | _ => none
    | _ => none
  | _ => none

/-- Leftmost match of the regex `time=(\d+):(\d+):(\d+)\.(\d+)` over a chunk
(the `chunk.match(timeRe)` of server.js line 157; `\d+` is greedy and a
maximal digit run is always followed by the required non-digit, so greedy
maximal munch coincides with the backtracking semantics). -/
def matchTime : List Char → Option (ℕ × ℕ × ℕ × ℕ)
  | [] => none
  | c :: cs =>
    match matchTimeAt (c :: cs) with
    | some r => some r
    | none => matchTime cs

/-- `hh*3600 + mm*60 + ss + (cs/100)` (server.js line 161): the fractional
group is always divided by 100, i.e. read as centiseconds. -/
def elapsedOf (hh mm ss cs : ℕ) : ℚ :=
  (hh : ℚ) * 3600 + (mm : ℚ) * 60 + (ss : ℚ) + (cs : ℚ) / 100

/-- The `Encoding… N%` message.  The JS code renders the percentage with
`toFixed(1)`; the exact decimal rendering is immaterial to every claim, so
the number is rendered with `toString`. -/
def encodingMessage (pct : ℚ) : String :=
  "Encoding… " ++ toString pct ++ "%"

/-- The patch published by the progress parser (server.js line 167). -/
def progressPatch (pct : ℚ) : Patch :=
  { percent := some pct, message := some (encodingMessage pct) }

/-- One invocation of the closure returned by `makeProgressParser`
(server.js lines 152–170) on a single chunk: given the captured
`durationSec` and the current `lastPct`, return the patch published to the
job registry (if any) and the new `lastPct`.  `!durationSec` is
`durationSec = 0` on ℚ. -/
def parserStep (durationSec lastPct : ℚ) (chunk : String) : Option Patch × ℚ :=
  match matchTime chunk.data with
  | none => (none, lastPct)
  | some (hh, mm, ss, cs) =>
    if durationSec = 0 then (none, lastPct)
    else
      let t := elapsedOf hh mm ss cs
      let pct := clamp (t / durationSec * 100) 0 100
      if lastPct ≤ pct then (some (progressPatch pct), pct)
      else (none, lastPct)

/-- Feeding a whole sequence of stderr chunks to one parser instance:
the list of patches it publishes, in order, and its final `lastPct`. -/
def parserRun (d : ℚ) (lastPct : ℚ) : List String → List Patch × ℚ
  | [] => ([], lastPct)
  | c :: cs =>
    let s := parserStep d lastPct c
    let r := parserRun d s.2 cs
    match s.1 with
    | none => r
    | some p => (p :: r.1, r.2)

/-- The percent values carried by a list of published patches. -/
def publishedPercents (ps : List Patch) : List ℚ :=
  ps.filterMap (fun p => p.percent)

/-- The derived per-job plan of server.js lines 183–192: the scale arguments
`useScale` spliced into both ffmpeg invocations, the chosen preset, and the
target video bitrate.  `autoQuality` is `true` for the `"on"` mode. -/
structure Plan where
  scaleArgs : List String
  preset : String
  videoKbps : ℚ
deriving DecidableEq

/-- Lines 183–192 of server.js:
`useScale = (autoQuality === "on" && scaleFilter) ? ["-vf", scaleFilter] : []`,
`chosenPreset = (autoQuality === "on") ? preset : "medium"`, and the bitrate
from `computeBitrates` (which does not read `autoQuality`). -/
def planFor (autoQuality : Bool) (width height durationSec targetMB audioKbps : ℚ) : Plan :=
  let s := autoSettings width height durationSec
  { scaleArgs :=
      if autoQuality then
        match s.scaleFilter with
        | some f => ["-vf", f]
        | none => []
      else []
    preset := if autoQuality then s.preset else "medium"
    videoKbps := computeBitrates targetMB durationSec audioKbps }

/-- Patch written by the POST /api/start handler when registering a job
(server.js lines 267–273). -/
def startPatch (inputPath outputPath : String) : Patch :=
  { status := some .queued, percent := some 0, message := some "Queued…"
    inputPath := some inputPath, outputPath := some outputPath }

/-- First patch of `twoPassEncode` (server.js line 173). -/
def runningPatch : Patch :=
  { status := some .running, percent := some 1, message := some "Analyzing media…" }

/-- Milestone patch before pass 1 (server.js line 198). -/
def pass1Milestone : Patch :=
  { message := some "Pass 1/2…", percent := some 2 }

/-- Milestone patch before pass 2 (server.js line 217). -/
def pass2Milestone : Patch :=
  { message := some "Pass 2/2…", percent := some 50 }

/-- Terminal success patch (server.js lines 238–243). -/
def donePatch (bytes : ℚ) : Patch :=
  { status := some .done, percent := some 100, message := some "Done ✅"
    outputBytes := some bytes }

/-- Terminal failure patch written by the handler's catch block
(server.js line 282). -/
def errorPatch (msg : String) : Patch :=
  { status := some .error, percent := some 0, message := some "Error"
    error := some msg }

/-- The environment of one run of `twoPassEncode`: the request parameters,
what ffprobe reported, the stderr chunks each ffmpeg pass delivered before
exiting, each pass's exit success, and the result of `fs.statSync` on the
output.  This captures every external input the orchestrator branches on. -/
structure EncodeEnv where
  inputPath : String
  outputPath : String
  durField : DurationField
  width : ℚ
  height : ℚ
  targetMB : ℚ
  audioKbps : ℚ
  autoQuality : Bool
  pass1Chunks : List String
  pass1Ok : Bool
  pass1Err : String
  pass2Chunks : List String
  pass2Ok : Bool
  pass2Err : String
  statResult : Option ℚ
  statErr : String
deriving DecidableEq

/-- What one run of `twoPassEncode` (plus the handler's catch) does to the
job: the ordered list of registry patches it performs, and whether the
planner and each encode pass were invoked. -/
structure EncodeResult where
  patches : List Patch
  plannerInvoked : Bool
  pass1Invoked : Bool
  pass2Invoked : Bool
deriving DecidableEq

/-- `twoPassEncode` (server.js lines 172–249) together with the catch block of
the POST /api/start handler (lines 278–286): the registry patches performed
for the job, in program order, for a given environment.  Any throw is caught
by the handler and converted into `errorPatch`; after the `done` patch the
remaining statements (pass-log unlinks) are wrapped in try/catch and cannot
throw, so no patch follows a terminal patch. -/
def twoPassEncodeModel (env : EncodeEnv) : EncodeResult :=
  let d := parseDurationSeconds env.durField
  if d = 0 then
    { patches := [runningPatch, errorPatch "Could not read duration."]
      plannerInvoked := false, pass1Invoked := false, pass2Invoked := false }
  else
    let pass1 := (parserRun d 0 env.pass1Chunks).1
    if env.pass1Ok = false then
      { patches := runningPatch :: pass1Milestone :: (pass1 ++ [errorPatch env.pass1Err])
        plannerInvoked := true, pass1Invoked := true, pass2Invoked := false }
    else
      let pass2 := (parserRun d 0 env.pass2Chunks).1
      if env.pass2Ok = false then
        { patches := runningPatch :: pass1Milestone ::
            (pass1 ++ pass2Milestone :: (pass2 ++ [errorPatch env.pass2Err]))
          plannerInvoked := true, pass1Invoked := true, pass2Invoked := true }
      else
        match env.statResult with
        | none =>
          { patches := runningPatch :: pass1Milestone ::
              (pass1 ++ pass2Milestone :: (pass2 ++ [errorPatch env.statErr]))
            plannerInvoked := true, pass1Invoked := true, pass2Invoked := true }
        | some bytes =>
          { patches := runningPatch :: pass1Milestone ::
              (pass1 ++ pass2Milestone :: (pass2 ++ [donePatch bytes]))
            plannerInvoked := true, pass1Invoked := true, pass2Invoked := true }

/-- The patches `twoPassEncode` performs for the job. -/
def encodePatches (env : EncodeEnv) : List Patch :=
  (twoPassEncodeModel env).patches

/-- The full patch sequence applied to one job record: the handler's initial
`queued` registration followed by the orchestrator's patches. -/
def jobTrace (env : EncodeEnv) : List Patch :=
  startPatch env.inputPath env.outputPath :: encodePatches env

/-- The job record after the first `k` patches of a trace have been merged
into the (initially absent, i.e. empty-object) registry entry. -/
def jobAfter (ps : List Patch) (k : ℕ) : Job :=
  (ps.take k).foldl applyPatch emptyJob

/-- The job's status after the first `k` patches. -/
def statusAfter (ps : List Patch) (k : ℕ) : Option Status :=
  (jobAfter ps k).status

/-- `s` is a terminal status value. -/
def isTerminal (s : Option Status) : Prop :=
  s = some .done ∨ s = some .error

/-- A single status transition allowed by the lifecycle
`queued → running → \x7bdone | error\x7d` (a job may also stay put, and starts
from the absent record). -/
def stepOk (s s2 : Option Status) : Prop :=
  s2 = s
  ∨ (s = none ∧ s2 = some .queued)
  ∨ (s = some .queued ∧ s2 = some .running)
  ∨ (s = some .running ∧ (s2 = some .done ∨ s2 = some .error))

/-- The reaper interval: `setInterval(..., 5*60*1000)` (server.js line 325). -/
def cleanupIntervalMs : ℚ := 5 * 60 * 1000

/-- One reaper inspection of a single job (server.js lines 315–323):
`const created = job.createdAt || (job.createdAt = now)` lazily stamps the
TTL anchor (note `0` is falsy, so a zero stamp would be re-stamped), and a
terminal job older than 30 minutes is removed (`none`); otherwise the job
survives with its stamp. -/
def reapJob (now : ℚ) (j : Job) : Option Job :=
  let created :=
    match j.createdAt with
    | some t => if t ≠ 0 then t else now
    | none => now
  if (j.status = some .done ∨ j.status = some .error) ∧ now - created > 30 * 60 * 1000 then
    none
  else
    some { j with createdAt := some created }

/-- The output paths the reaper unlinks when purging a job:
`if (job.outputPath) fs.unlinkSync(job.outputPath)` (truthy check, so the
empty string is skipped). -/
def unlinkTargets (j : Job) : List String :=
  match j.outputPath with
  | some p => if p ≠ "" then [p] else []
  | none => []

/-- One full reaper sweep over the registry (server.js lines 313–325):
returns the surviving records (with stamped `createdAt`) and the list of
output paths unlinked. -/
def cleanupReg (now : ℚ) : List (String × Job) → List (String × Job) × List String
  | [] => ([], [])
  | (id, j) :: rest =>
    let r := cleanupReg now rest
    match reapJob now j with
    | none => (r.1, unlinkTargets j ++ r.2)
    | some j2 => ((id, j2) :: r.1, r.2)

/-- `jobs.set(jobId, merged)` over the association-list registry: replace the
record if present, else append it. -/
def setJobReg (reg : List (String × Job)) (id : String) (p : Patch) : List (String × Job) :=
  match reg with
  | [] => [(id, applyPatch emptyJob p)]
  | (i, j) :: rest =>
    if i = id then (i, applyPatch j p) :: rest
    else (i, j) :: setJobReg rest id p

/-- System state: the job registry and the set of files on disk that the
reaper may unlink. -/
structure Sys where
  reg : List (String × Job)
  files : List String
deriving DecidableEq

/-- An observable event: a registry patch performed by the program for some
job, or a reaper tick.  Each event carries the wall-clock time (`Date.now()`)
at which it occurs; only ticks read the clock. -/
inductive Ev
| patch (id : String) (p : Patch)
| tick
deriving DecidableEq

/-- One event step. -/
def stepEv (s : Sys) (e : ℚ × Ev) : Sys :=
  match e.2 with
  | .patch id p => { s with reg := setJobReg s.reg id p }
  | .tick =>
    let r := cleanupReg e.1 s.reg
    { reg := r.1, files := s.files.filter (fun f => !(r.2.contains f)) }

/-- Run a timed event sequence. -/
def runEvents (s : Sys) (evs : List (ℚ × Ev)) : Sys :=
  evs.foldl stepEv s

/-- Result of GET /api/progress/:jobId (server.js lines 289–300).
`outputMB` is present only when `outputBytes` is truthy (nonzero). -/
inductive ProgressResp
| missing
| ok (status : Option Status) (percent : ℚ) (message : String)
    (errMsg : Option String) (outputMB : Option ℚ)
deriving DecidableEq

/-- Registry lookup `jobs.get(id)`. -/
def lookupJob (reg : List (String × Job)) (id : String) : Option Job :=
  reg.lookup id

/-- GET /api/progress/:jobId (server.js lines 289–300). -/
def progressRoute (reg : List (String × Job)) (id : String) : ProgressResp :=
  match lookupJob reg id with
  | none => .missing
  | some j =>
    .ok j.status (j.percent.getD 0) (j.message.getD "") j.error
      (match j.outputBytes with
       | some b => if b ≠ 0 then some (b / (1024 * 1024)) else none
       | none => none)

/-- Result of GET /api/download/:jobId (server.js lines 302–310):
404 "Missing job.", 409 "Not ready.", or the file download. -/
inductive DownloadResp
| missingJob
| notReady
| fileDownload (path : String) (name : String)
deriving DecidableEq

/-- GET /api/download/:jobId (server.js lines 302–310). -/
def downloadRoute (reg : List (String × Job)) (id : String) : DownloadResp :=
  match lookupJob reg id with
  | none => .missingJob
  | some j =>
    if j.status = some .done then
      .fileDownload (j.outputPath.getD "") ("navine-" ++ id ++ ".mp4")
    else .notReady

/-- C1: for every valid input (targetMB > 0, durationSeconds > 0,
audioKbps > 0), the bitrate allocator computes
totalBits = targetMB * 2^20 * 8, audioBits = audioKbps * 1000 * duration,
videoBits = max(totalBits - audioBits, 0.70 * totalBits), and returns
videoKbps = clamp(floor(videoBits / duration / 1000), 200, 50000); the video
bit budget is never below 70% of the total budget and the result lies in
[200, 50000]. -/
theorem computeBitrates_spec (targetMB durationSec audioKbps : ℚ)
    (ht : 0 < targetMB) (hd : 0 < durationSec) (ha : 0 < audioKbps) :
    computeBitrates targetMB durationSec audioKbps
        = clamp ((⌊max (targetMB * 2 ^ 20 * 8 - audioKbps * 1000 * durationSec)
              ((7 / 10) * (targetMB * 2 ^ 20 * 8)) / durationSec / 1000⌋ : ℤ) : ℚ) 200 50000
      ∧ (7 / 10) * (targetMB * 2 ^ 20 * 8)
          ≤ max (targetMB * 2 ^ 20 * 8 - audioKbps * 1000 * durationSec)
              ((7 / 10) * (targetMB * 2 ^ 20 * 8))
      ∧ 200 ≤ computeBitrates targetMB durationSec audioKbps
      ∧ computeBitrates targetMB durationSec audioKbps ≤ 50000 := by
  have h20 : (targetMB * 1024 * 1024 * 8 : ℚ) = targetMB * 2 ^ 20 * 8 := by ring
  refine ⟨?_, le_max_right _ _, ?_, ?_⟩
  · simp only [computeBitrates]
    rw [h20, mul_comm (targetMB * 2 ^ 20 * 8) (7 / 10)]
  · simp only [computeBitrates, clamp]
    exact le_max_left _ _
  · simp only [computeBitrates, clamp]
    exact max_le (by norm_num) (min_le_left _ _)

/-- Witness for C1 at the spec's own scenario (targetMB 499, duration 600 s,
audio 128 kbps). -/
theorem computeBitrates_spec_witness :
    ((0 : ℚ) < 499 ∧ (0 : ℚ) < 600 ∧ (0 : ℚ) < 128)
    ∧ (computeBitrates 499 600 128
          = clamp ((⌊max ((499 : ℚ) * 2 ^ 20 * 8 - 128 * 1000 * 600)
                ((7 / 10) * (499 * 2 ^ 20 * 8)) / 600 / 1000⌋ : ℤ) : ℚ) 200 50000
        ∧ (7 / 10) * ((499 : ℚ) * 2 ^ 20 * 8)
            ≤ max ((499 : ℚ) * 2 ^ 20 * 8 - 128 * 1000 * 600) ((7 / 10) * (499 * 2 ^ 20 * 8))
        ∧ 200 ≤ computeBitrates 499 600 128
        ∧ computeBitrates 499 600 128 ≤ 50000) :=
  ⟨⟨by norm_num, by norm_num, by norm_num⟩,
   computeBitrates_spec 499 600 128 (by norm_num) (by norm_num) (by norm_num)⟩

/-- C6: preset selection is a monotone step function of duration alone:
above 30 min the fastest tier (veryfast), at or below 7 min the slowest
(slow), and the tier's speed never decreases as duration grows; width and
height do not influence the preset. -/
theorem autoSettings_preset_spec (w h w2 h2 d d2 : ℚ) (hdd : d ≤ d2) :
    (30 * 60 < d → (autoSettings w h d).preset = "veryfast")
    ∧ (d ≤ 7 * 60 → (autoSettings w h d).preset = "slow")
    ∧ presetSpeed (autoSettings w h d).preset ≤ presetSpeed (autoSettings w2 h2 d2).preset
    ∧ (autoSettings w h d).preset = (autoSettings w2 h2 d).preset := by
  refine ⟨?_, ?_, ?_, ?_⟩
  · intro hgt
    simp only [autoSettings]
    rw [if_pos hgt]
  · intro hle
    simp only [autoSettings]
    rw [if_neg (by linarith), if_neg (by linarith), if_neg (by linarith)]
  · simp only [autoSettings]
    split_ifs <;> simp [presetSpeed] <;> linarith
  · simp only [autoSettings]

/-- Witness for C6 (a 2-minute clip against a 40-minute one). -/
theorem autoSettings_preset_spec_witness :
    ((120 : ℚ) ≤ 2400)
    ∧ ((30 * 60 < (120 : ℚ) → (autoSettings 1920 1080 120).preset = "veryfast")
      ∧ ((120 : ℚ) ≤ 7 * 60 → (autoSettings 1920 1080 120).preset = "slow")
      ∧ presetSpeed (autoSettings 1920 1080 120).preset
          ≤ presetSpeed (autoSettings 640 480 2400).preset
      ∧ (autoSettings 1920 1080 120).preset = (autoSettings 640 480 120).preset) :=
  ⟨by norm_num, autoSettings_preset_spec 1920 1080 640 480 120 2400 (by norm_num)⟩

/-- C7: the scale filter is passed to the encoder iff max(width, height) is
at least 3840 and auto-quality is on; with auto-quality off the fixed preset
"medium" is used and no scale filter is passed; and the computed video
bitrate is the same whether auto-quality is on or off. -/
theorem planFor_spec (aq : Bool) (w h d targetMB audioKbps : ℚ) :
    ((planFor aq w h d targetMB audioKbps).scaleArgs ≠ []
        ↔ (aq = true ∧ 3840 ≤ max w h))
    ∧ (planFor false w h d targetMB audioKbps).preset = "medium"
    ∧ (planFor false w h d targetMB audioKbps).scaleArgs = []
    ∧ (planFor true w h d targetMB audioKbps).videoKbps
        = (planFor false w h d targetMB audioKbps).videoKbps := by
  refine ⟨?_, rfl, rfl, rfl⟩
  cases aq with
  | false => simp [planFor]
  | true =>
    simp only [planFor, autoSettings]
    by_cases hdim : 3840 ≤ max w h
    · rw [if_pos hdim]
      simp [hdim]
    · rw [if_neg hdim]
      simp [hdim]

lemma progressPatch_percent (q : ℚ) : (progressPatch q).percent = some q := rfl

lemma progressPatch_status (q : ℚ) : (progressPatch q).status = none := rfl

/-- Evaluation rule for a publishing parser invocation. -/
lemma parserStep_eval (d l : ℚ) (c : String) (hh mm ss cs : ℕ)
    (hmt : matchTime c.data = some (hh, mm, ss, cs)) (hd : d ≠ 0) (q : ℚ)
    (hq : clamp (elapsedOf hh mm ss cs / d * 100) 0 100 = q) (hl : l ≤ q) :
    parserStep d l c = (some (progressPatch q), q) := by
  unfold parserStep
  rw [hmt]
  dsimp only
  rw [if_neg hd, hq, if_pos hl]

/-- Each parser invocation either publishes nothing and keeps its state, or
publishes exactly one clamped patch at or above the previous value. -/
lemma parserStep_cases (d l : ℚ) (c : String) :
    parserStep d l c = (none, l)
    ∨ ∃ q, parserStep d l c = (some (progressPatch q), q) ∧ l ≤ q ∧ 0 ≤ q ∧ q ≤ 100 := by
  rcases hmt : matchTime c.data with _ | ⟨hh, mm, ss, cs⟩
  · left
    unfold parserStep
    rw [hmt]
  · by_cases hd : d = 0
    · left
      unfold parserStep
      rw [hmt]
      dsimp only
      rw [if_pos hd]
    · set pct := clamp (elapsedOf hh mm ss cs / d * 100) 0 100 with hpct
      have h0 : 0 ≤ pct := by
        rw [hpct]
        unfold clamp
        exact le_max_left _ _
      have h100 : pct ≤ 100 := by
        rw [hpct]
        unfold clamp
        exact max_le (by norm_num) (min_le_left _ _)
      by_cases hl : l ≤ pct
      · right
        exact ⟨pct, parserStep_eval d l c hh mm ss cs hmt hd pct hpct.symm hl, hl, h0, h100⟩
      · left
        unfold parserStep
        rw [hmt]
        dsimp only
        rw [if_neg hd, ← hpct, if_neg hl]

/-- Patches published by a parser instance carry no status field. -/
lemma parserRun_status_none (d : ℚ) :
    ∀ (chunks : List String) (l : ℚ), ∀ p ∈ (parserRun d l chunks).1, p.status = none := by
  intro chunks
  induction chunks with
  | nil => intro l p hp; simp [parserRun] at hp
  | cons c cs ih =>
    intro l p hp
    rcases parserStep_cases d l c with hc | ⟨q, hc, _, _, _⟩
    · rw [parserRun, hc] at hp
      exact ih l p hp
    · rw [parserRun, hc] at hp
      simp only [List.mem_cons] at hp
      rcases hp with rfl | hp
      · exact progressPatch_status q
      · exact ih q p hp

/-- The percents a single parser instance publishes are in [0, 100], never
below the instance's starting value, and non-decreasing; the instance's final
value never decreases either. -/
lemma parserRun_spec (d : ℚ) :
    ∀ (chunks : List String) (l : ℚ),
      (∀ q ∈ publishedPercents (parserRun d l chunks).1, l ≤ q ∧ 0 ≤ q ∧ q ≤ 100)
      ∧ List.Chain' (· ≤ ·) (l :: publishedPercents (parserRun d l chunks).1)
      ∧ l ≤ (parserRun d l chunks).2 := by
  intro chunks
  induction chunks with
  | nil =>
    intro l
    refine ⟨?_, ?_, le_refl l⟩
    · intro q hq; simp [parserRun, publishedPercents] at hq
    · simp [parserRun, publishedPercents]
  | cons c cs ih =>
    intro l
    rcases parserStep_cases d l c with hc | ⟨q, hc, hlq, h0, h100⟩
    · have h : parserRun d l (c :: cs) = parserRun d l cs := by
        rw [parserRun, hc]
      rw [h]
      exact ih l
    · have h : parserRun d l (c :: cs)
          = (progressPatch q :: (parserRun d q cs).1, (parserRun d q cs).2) := by
        rw [parserRun, hc]
      obtain ⟨ihmem, ihchain, ihle⟩ := ih q
      have hpub : publishedPercents (parserRun d l (c :: cs)).1
          = q :: publishedPercents ((parserRun d q cs)).1 := by
        rw [h]
        simp [publishedPercents, progressPatch_percent]
      refine ⟨?_, ?_, ?_⟩
      · intro x hx
        rw [hpub] at hx
        rcases List.mem_cons.mp hx with rfl | hx
        · exact ⟨hlq, h0, h100⟩
        · obtain ⟨hqx, hx0, hx100⟩ := ihmem x hx
          exact ⟨le_trans hlq hqx, hx0, hx100⟩
      · rw [hpub]
        exact List.Chain'.cons hlq ihchain
      · rw [h]
        exact le_trans hlq ihle

/-- C5: for a single progress-parser instance fed any chunk sequence, every
published percent lies in [0, 100] and the published sequence is
non-decreasing; a chunk with no `time=hh:mm:ss.fraction` match, or a parser
constructed with zero duration, publishes nothing and leaves both the job
record and the parser state unchanged. -/
theorem progressParser_spec (d l : ℚ) (chunks : List String) (c0 : String)
    (hc0 : matchTime c0.data = none) :
    (∀ q ∈ publishedPercents (parserRun d 0 chunks).1, 0 ≤ q ∧ q ≤ 100)
    ∧ List.Chain' (· ≤ ·) (publishedPercents (parserRun d 0 chunks).1)
    ∧ parserStep d l c0 = (none, l)
    ∧ (∀ c : String, parserStep 0 l c = (none, l)) := by
  obtain ⟨hmem, hchain, _⟩ := parserRun_spec d chunks 0
  refine ⟨?_, ?_, ?_, ?_⟩
  · intro q hq
    exact (hmem q hq).2
  · exact hchain.tail
  · unfold parserStep
    rw [hc0]
  · intro c
    unfold parserStep
    rcases matchTime c.data with _ | ⟨hh, mm, ss, cs⟩
    · rfl
    · simp

/-- Witness for C5: duration 10 s, one matching chunk, one chunk with no
timestamp. -/
theorem progressParser_spec_witness :
    matchTime "frame=  12 fps=180 q=28.0".data = none
    ∧ ((∀ q ∈ publishedPercents (parserRun 10 0 ["time=00:00:05.00 bitrate= 600k"]).1,
          0 ≤ q ∧ q ≤ 100)
      ∧ List.Chain' (· ≤ ·)
          (publishedPercents (parserRun 10 0 ["time=00:00:05.00 bitrate= 600k"]).1)
      ∧ parserStep 10 3 "frame=  12 fps=180 q=28.0" = (none, 3)
      ∧ (∀ c : String, parserStep 0 3 c = (none, 3))) :=
  ⟨by decide,
   progressParser_spec 10 3 ["time=00:00:05.00 bitrate= 600k"]
     "frame=  12 fps=180 q=28.0" (by decide)⟩

/-- C10: the progress parser only matches timestamps with a fractional part
(digits, dot, digits), and converts hh:mm:ss.f to
hh*3600 + mm*60 + ss + f/100, reading the fraction as centiseconds whatever
its width: a one-digit fraction ".5" yields 1.05 s instead of 1.5 s, a
three-digit fraction ".500" yields 6 s instead of 1.5 s, and a timestamp
without a fraction is ignored entirely. -/
theorem timestamp_centiseconds_spec :
    matchTime "time=0:0:1.5".data = some (0, 0, 1, 5)
    ∧ elapsedOf 0 0 1 5 = 105 / 100 ∧ ((105 : ℚ) / 100 ≠ 3 / 2)
    ∧ parserStep 10 0 "time=0:0:1.5" = (some (progressPatch (21 / 2)), 21 / 2)
    ∧ matchTime "time=0:0:1.500".data = some (0, 0, 1, 500)
    ∧ elapsedOf 0 0 1 500 = 6 ∧ ((6 : ℚ) ≠ 3 / 2)
    ∧ parserStep 10 0 "time=0:0:1.500" = (some (progressPatch 60), 60)
    ∧ matchTime "time=0:0:1".data = none
    ∧ matchTime "time=00:00:01".data = none
    ∧ matchTime "time=1:2:3.45".data = some (1, 2, 3, 45)
    ∧ elapsedOf 1 2 3 45 = 3723 + 45 / 100 := by
  refine ⟨by decide, by norm_num [elapsedOf], by norm_num, ?_, by decide,
    by norm_num [elapsedOf], by norm_num, ?_, by decide, by decide, by decide,
    by norm_num [elapsedOf]⟩
  · exact parserStep_eval 10 0 _ 0 0 1 5 (by decide) (by norm_num) (21 / 2)
      (by norm_num [elapsedOf, clamp, min_def, max_def]) (by norm_num)
  · exact parserStep_eval 10 0 _ 0 0 1 500 (by decide) (by norm_num) 60
      (by norm_num [elapsedOf, clamp, min_def, max_def]) (by norm_num)

/-- C2 (amended): within a single progress-parser instance the published
percent values never decrease, and never drop below the instance's current
last-reported value (each pass of the orchestrator attaches a fresh
instance). -/
theorem percent_monotone_within_pass (d lastPct : ℚ) (chunks : List String) :
    List.Chain' (· ≤ ·) (lastPct :: publishedPercents (parserRun d lastPct chunks).1) :=
  (parserRun_spec d chunks lastPct).2.1

/-- Environment exhibiting the pass-2 percent reset: duration 10 s, pass 1
reaches its end (`time=0:0:10.0`, 100%), both passes succeed. -/
def c2Env : EncodeEnv :=
  { inputPath := "in.mp4", outputPath := "out.mp4"
    durField := .numeric 10, width := 1280, height := 720
    targetMB := 10, audioKbps := 128, autoQuality := true
    pass1Chunks := ["time=0:0:10.0"], pass1Ok := true, pass1Err := ""
    pass2Chunks := [], pass2Ok := true, pass2Err := ""
    statResult := some 1000, statErr := "" }

/-- C2 is false as stated: in the trace of `c2Env` the job is `running` with
percent 100 after the pass-1 parser update, and still `running` with percent
50 after the orchestrator's pass-2 milestone patch — percent decreases while
status is `running`. -/
theorem percent_decreases_while_running_counterexample :
    (jobAfter (jobTrace c2Env) 4).status = some .running
    ∧ (jobAfter (jobTrace c2Env) 4).percent = some 100
    ∧ (jobAfter (jobTrace c2Env) 5).status = some .running
    ∧ (jobAfter (jobTrace c2Env) 5).percent = some 50
    ∧ ((50 : ℚ) < 100) := by
  have h1 : parserStep 10 0 "time=0:0:10.0" = (some (progressPatch 100), 100) :=
    parserStep_eval 10 0 _ 0 0 10 0 (by decide) (by norm_num) 100
      (by norm_num [elapsedOf, clamp, min_def, max_def]) (by norm_num)
  have hT : jobTrace c2Env
      = [startPatch "in.mp4" "out.mp4", runningPatch, pass1Milestone, progressPatch 100,
         pass2Milestone, donePatch 1000] := by
    norm_num [jobTrace, encodePatches, twoPassEncodeModel, c2Env, parseDurationSeconds, h1,
      parserRun]
  rw [hT]
  refine ⟨rfl, rfl, rfl, rfl, by norm_num⟩

lemma applyPatch_status (j p : Job) : (applyPatch j p).status = mergeField p.status j.status :=
  rfl

/-- Folding patches that carry no status field leaves the status unchanged. -/
lemma foldl_status_none (ps : List Patch) (h : ∀ p ∈ ps, p.status = none) (j : Job) :
    (ps.foldl applyPatch j).status = j.status := by
  induction ps generalizing j with
  | nil => rfl
  | cons p ps ih =>
    have hp : p.status = none := h p (List.mem_cons_self _ _)
    have hps : ∀ q ∈ ps, q.status = none := fun q hq => h q (List.mem_cons_of_mem _ hq)
    rw [List.foldl_cons, ih hps, applyPatch_status, hp]
    rfl

/-- The status a trace of shape
`start :: running :: (mid ++ [terminal])` reaches after `k` patches. -/
def statusSpec (m : ℕ) (fs : Option Status) (k : ℕ) : Option Status :=
  if k = 0 then none
  else if k = 1 then some .queued
  else if k ≤ m + 2 then some .running
  else fs

/-- The status after `k` patches of any trace of the canonical shape. -/
lemma statusAfter_shape (ip op : String) (mid : List Patch) (lastP : Job)
    (hmid : ∀ p ∈ mid, p.status = none) (s : Status) (hlast : lastP.status = some s) :
    ∀ k, statusAfter (startPatch ip op :: runningPatch :: (mid ++ [lastP])) k
      = statusSpec mid.length (some s) k := by
  intro k
  match k with
  | 0 => rfl
  | 1 => rfl
  | (n + 2) =>
    have hspec : statusSpec mid.length (some s) (n + 2)
        = if n ≤ mid.length then some .running else some s := by
      unfold statusSpec
      rw [if_neg (by omega), if_neg (by omega)]
      by_cases hn : n ≤ mid.length
      · rw [if_pos (by omega), if_pos hn]
      · rw [if_neg (by omega), if_neg hn]
    rw [hspec]
    unfold statusAfter jobAfter
    rw [List.take_succ_cons, List.take_succ_cons, List.foldl_cons, List.foldl_cons]
    have hj2 : (applyPatch (applyPatch emptyJob (startPatch ip op)) runningPatch).status
        = some .running := rfl
    rw [List.take_append_eq_append_take, List.foldl_append]
    by_cases hn : n ≤ mid.length
    · have htake0 : (List.take (n - mid.length) [lastP]) = [] := by
        by_cases he : n = mid.length
        · simp [he]
        · have : n - mid.length = 0 := by omega
          simp [this]
      rw [htake0, if_pos hn]
      simp only [List.foldl_nil]
      rw [foldl_status_none _ (fun p hp => hmid p (List.take_subset _ _ hp)) _, hj2]
    · have htake1 : (List.take (n - mid.length) [lastP]) = [lastP] := by
        have h1 : (1 : ℕ) ≤ n - mid.length := by omega
        exact List.take_of_length_le (by simpa using h1)
      have htakemid : List.take n mid = mid := List.take_of_length_le (by omega)
      rw [htake1, htakemid, if_neg hn]
      simp only [List.foldl_cons, List.foldl_nil]
      rw [applyPatch_status, hlast]
      rfl

/-- Every run of the orchestrator performs, for its job, the `running` patch
followed by status-free patches and exactly one final terminal patch. -/
lemma encodePatches_shape (env : EncodeEnv) :
    ∃ mid lastP, encodePatches env = runningPatch :: (mid ++ [lastP])
      ∧ (∀ p ∈ mid, p.status = none)
      ∧ (lastP.status = some .done ∨ lastP.status = some .error) := by
  have hpm1 : (pass1Milestone : Patch).status = none := rfl
  have hpm2 : (pass2Milestone : Patch).status = none := rfl
  unfold encodePatches twoPassEncodeModel
  by_cases hd : parseDurationSeconds env.durField = 0
  · rw [if_pos hd]
    exact ⟨[], errorPatch "Could not read duration.", rfl, by simp, Or.inr rfl⟩
  · rw [if_neg hd]
    set d := parseDurationSeconds env.durField
    set p1 := (parserRun d 0 env.pass1Chunks).1 with hp1
    have hp1none : ∀ p ∈ p1, p.status = none := parserRun_status_none d env.pass1Chunks 0
    by_cases h1 : env.pass1Ok = false
    · rw [if_pos h1]
      refine ⟨pass1Milestone :: p1, errorPatch env.pass1Err, by simp, ?_, Or.inr rfl⟩
      intro p hp
      rcases List.mem_cons.mp hp with rfl | hp
      · exact hpm1
      · exact hp1none p hp
    · rw [if_neg h1]
      set p2 := (parserRun d 0 env.pass2Chunks).1 with hp2
      have hp2none : ∀ p ∈ p2, p.status = none := parserRun_status_none d env.pass2Chunks 0
      have hmid : ∀ p ∈ pass1Milestone :: (p1 ++ pass2Milestone :: p2), p.status = none := by
        intro p hp
        rcases List.mem_cons.mp hp with rfl | hp
        · exact hpm1
        rcases List.mem_append.mp hp with hp | hp
        · exact hp1none p hp
        rcases List.mem_cons.mp hp with rfl | hp
        · exact hpm2
        · exact hp2none p hp
      by_cases h2 : env.pass2Ok = false
      · rw [if_pos h2]
        exact ⟨pass1Milestone :: (p1 ++ pass2Milestone :: p2), errorPatch env.pass2Err,
          by simp, hmid, Or.inr rfl⟩
      · rw [if_neg h2]
        cases hst : env.statResult with
        | none =>
          exact ⟨pass1Milestone :: (p1 ++ pass2Milestone :: p2), errorPatch env.statErr,
            by simp, hmid, Or.inr rfl⟩
        | some bytes =>
          exact ⟨pass1Milestone :: (p1 ++ pass2Milestone :: p2), donePatch bytes,
            by simp, hmid, Or.inl rfl⟩

lemma statusSpec_stepOk (m : ℕ) (s : Status) (hs : s = .done ∨ s = .error) (k : ℕ) :
    stepOk (statusSpec m (some s) k) (statusSpec m (some s) (k + 1)) := by
  unfold statusSpec stepOk
  split_ifs <;> rcases hs with rfl | rfl <;> simp_all <;> omega

lemma statusSpec_terminal (m : ℕ) (s : Status) (k l : ℕ) (hkl : k ≤ l)
    (h : isTerminal (statusSpec m (some s) k)) :
    statusSpec m (some s) l = statusSpec m (some s) k := by
  unfold statusSpec at h ⊢
  by_cases h0 : k = 0
  · rw [if_pos h0] at h
    rcases h with h | h <;> exact absurd h (by simp)
  by_cases h1 : k = 1
  · rw [if_neg h0, if_pos h1] at h
    rcases h with h | h <;> simp [isTerminal] at h
  by_cases h2 : k ≤ m + 2
  · rw [if_neg h0, if_neg h1, if_pos h2] at h
    rcases h with h | h <;> simp [isTerminal] at h
  · rw [if_neg h0, if_neg h1, if_neg h2,
      if_neg (by omega), if_neg (by omega), if_neg (by omega)]

/-- C4: for every environment, the job's status transitions only along
queued → running → \x7bdone | error\x7d (or stays put), and once the status is
terminal no later point of the trace shows any other status. -/
theorem job_status_lifecycle (env : EncodeEnv) (k l : ℕ) (hkl : k ≤ l) :
    stepOk (statusAfter (jobTrace env) k) (statusAfter (jobTrace env) (k + 1))
    ∧ (isTerminal (statusAfter (jobTrace env) k)
        → statusAfter (jobTrace env) l = statusAfter (jobTrace env) k) := by
  obtain ⟨mid, lastP, heq, hmid, hterm⟩ := encodePatches_shape env
  obtain ⟨s, hsv, hs⟩ : ∃ s, lastP.status = some s ∧ (s = .done ∨ s = .error) := by
    rcases hterm with h | h
    · exact ⟨.done, h, Or.inl rfl⟩
    · exact ⟨.error, h, Or.inr rfl⟩
  have hT : jobTrace env
      = startPatch env.inputPath env.outputPath :: runningPatch :: (mid ++ [lastP]) := by
    rw [jobTrace, heq]
  rw [hT, statusAfter_shape _ _ _ _ hmid s hsv, statusAfter_shape _ _ _ _ hmid s hsv,
    statusAfter_shape _ _ _ _ hmid s hsv]
  exact ⟨statusSpec_stepOk mid.length s hs k,
    fun h => statusSpec_terminal mid.length s k l hkl h⟩

/-- Environment whose probe has no duration field at all. -/
def c4Env : EncodeEnv :=
  { inputPath := "in.mp4", outputPath := "out.mp4"
    durField := .absent, width := 0, height := 0
    targetMB := 499, audioKbps := 128, autoQuality := true
    pass1Chunks := [], pass1Ok := true, pass1Err := ""
    pass2Chunks := [], pass2Ok := true, pass2Err := ""
    statResult := some 1000, statErr := "" }

/-- Witness for C4 on a concrete trace. -/
theorem job_status_lifecycle_witness :
    (3 ≤ 7)
    ∧ (stepOk (statusAfter (jobTrace c4Env) 3) (statusAfter (jobTrace c4Env) (3 + 1))
      ∧ (isTerminal (statusAfter (jobTrace c4Env) 3)
          → statusAfter (jobTrace c4Env) 7 = statusAfter (jobTrace c4Env) 3)) :=
  ⟨by norm_num, job_status_lifecycle c4Env 3 7 (by norm_num)⟩

/-- C8: when the probe's container duration is absent, non-numeric, or
non-positive, the orchestrator writes only the `running` patch and then the
terminal `error` patch — the planner and both encode passes are never
invoked, and the job ends in the `error` state. -/
theorem unusable_duration_fails_fast (env : EncodeEnv)
    (h : env.durField = .absent ∨ env.durField = .nonNumeric
      ∨ ∃ q, env.durField = .numeric q ∧ q ≤ 0) :
    encodePatches env = [runningPatch, errorPatch "Could not read duration."]
    ∧ (twoPassEncodeModel env).plannerInvoked = false
    ∧ (twoPassEncodeModel env).pass1Invoked = false
    ∧ (twoPassEncodeModel env).pass2Invoked = false
    ∧ statusAfter (jobTrace env) (jobTrace env).length = some .error := by
  have hd : parseDurationSeconds env.durField = 0 := by
    rcases h with h | h | ⟨q, h, hq⟩ <;> rw [h]
    · rfl
    · rfl
    · unfold parseDurationSeconds
      dsimp only
      rw [if_neg (not_lt.mpr hq)]
  have hm : twoPassEncodeModel env
      = { patches := [runningPatch, errorPatch "Could not read duration."]
          plannerInvoked := false, pass1Invoked := false, pass2Invoked := false } := by
    unfold twoPassEncodeModel
    rw [hd]
    rfl
  have hp : encodePatches env = [runningPatch, errorPatch "Could not read duration."] := by
    rw [encodePatches, hm]
  refine ⟨hp, by rw [hm], by rw [hm], by rw [hm], ?_⟩
  rw [jobTrace, hp]
  rfl

/-- Environment whose probe reports a zero container duration. -/
def c8Env : EncodeEnv :=
  { inputPath := "clip.mov", outputPath := "out-clip.mp4"
    durField := .numeric 0, width := 1920, height := 1080
    targetMB := 100, audioKbps := 128, autoQuality := false
    pass1Chunks := [], pass1Ok := true, pass1Err := ""
    pass2Chunks := [], pass2Ok := true, pass2Err := ""
    statResult := some 1000, statErr := "" }

/-- Witness for C8: a probe whose container duration is non-positive. -/
theorem unusable_duration_fails_fast_witness :
    (c8Env.durField = .absent ∨ c8Env.durField = .nonNumeric
      ∨ ∃ q, c8Env.durField = .numeric q ∧ q ≤ 0)
    ∧ (encodePatches c8Env = [runningPatch, errorPatch "Could not read duration."]
      ∧ (twoPassEncodeModel c8Env).plannerInvoked = false
      ∧ (twoPassEncodeModel c8Env).pass1Invoked = false
      ∧ (twoPassEncodeModel c8Env).pass2Invoked = false
      ∧ statusAfter (jobTrace c8Env) (jobTrace c8Env).length = some .error) :=
  ⟨Or.inr (Or.inr ⟨0, rfl, le_refl 0⟩),
   unusable_duration_fails_fast c8Env (Or.inr (Or.inr ⟨0, rfl, le_refl 0⟩))⟩

/-- C9: a progress query for an unknown job id yields the distinct `missing`
response (never a default job record), artifact retrieval for an existing
job that is not `done` yields the conflict-style `notReady` response (never
the file), and retrieval for an unknown id yields the not-found-style
`missingJob` response. -/
theorem routes_spec (reg : List (String × Job)) (id : String) (j : Job)
    (hj : lookupJob reg id = some j) (hnd : j.status ≠ some .done) :
    downloadRoute reg id = .notReady
    ∧ progressRoute reg id ≠ .missing
    ∧ (∀ (reg2 : List (String × Job)) (id2 : String), lookupJob reg2 id2 = none
        → progressRoute reg2 id2 = .missing ∧ downloadRoute reg2 id2 = .missingJob) := by
  refine ⟨?_, ?_, ?_⟩
  · unfold downloadRoute
    rw [hj]
    dsimp only
    rw [if_neg hnd]
  · unfold progressRoute
    rw [hj]
    simp
  · intro reg2 id2 hmiss
    constructor
    · unfold progressRoute
      rw [hmiss]
    · unfold downloadRoute
      rw [hmiss]

/-- A running job record, for the C9 witness. -/
def c9Job : Job :=
  { status := some .running, percent := some 42, message := some "Encoding… 42%" }

/-- A registry with one running job, for the C9 witness. -/
def c9Reg : List (String × Job) := [("abc", c9Job)]

/-- Witness for C9 on a concrete registry. -/
theorem routes_spec_witness :
    (lookupJob c9Reg "abc" = some c9Job ∧ c9Job.status ≠ some .done)
    ∧ (downloadRoute c9Reg "abc" = .notReady
      ∧ progressRoute c9Reg "abc" ≠ .missing
      ∧ (∀ (reg2 : List (String × Job)) (id2 : String), lookupJob reg2 id2 = none
          → progressRoute reg2 id2 = .missing ∧ downloadRoute reg2 id2 = .missingJob)) :=
  ⟨⟨by decide, by decide⟩,
   routes_spec c9Reg "abc" c9Job (by decide) (by decide)⟩

/-- C3 (amended): the reaper never removes a non-terminal job; a job whose
lazily stamped `createdAt` anchor (set at the job's first reaper inspection,
which need not coincide with the terminal transition) is at most 30 minutes
old is retained, record and output intact; a terminal job whose anchor is
older than 30 minutes is removed and its output unlinked; the sweep runs
every 5 minutes. -/
theorem reaper_ttl_spec (now t : ℚ) (j : Job) (id : String)
    (ht : j.createdAt = some t) (ht0 : t ≠ 0) :
    (∀ (now2 : ℚ) (j2 : Job), j2.status ≠ some .done → j2.status ≠ some .error
        → reapJob now2 j2 ≠ none)
    ∧ (now - t ≤ 30 * 60 * 1000
        → cleanupReg now [(id, j)] = ([(id, { j with createdAt := some t })], []))
    ∧ ((j.status = some .done ∨ j.status = some .error) → now - t > 30 * 60 * 1000
        → reapJob now j = none ∧ cleanupReg now [(id, j)] = ([], unlinkTargets j))
    ∧ cleanupIntervalMs = 5 * 60 * 1000 := by
  have hcreated : (match j.createdAt with
      | some t2 => if t2 ≠ 0 then t2 else now
      | none => now) = t := by
    rw [ht]
    exact if_pos ht0
  refine ⟨?_, ?_, ?_, rfl⟩
  · intro now2 j2 h1 h2
    unfold reapJob
    rw [if_neg ?hc]
    · exact fun h => Option.noConfusion h
    case hc =>
      rintro ⟨h | h, -⟩
      · exact h1 h
      · exact h2 h
  · intro hle
    have hj : reapJob now j = some { j with createdAt := some t } := by
      unfold reapJob
      rw [hcreated, if_neg ?hc2]
      case hc2 =>
        rintro ⟨-, hgt⟩
        exact absurd hgt (not_lt.mpr hle)
    unfold cleanupReg
    rw [hj]
    rfl
  · intro hterm hgt
    have hj : reapJob now j = none := by
      unfold reapJob
      rw [hcreated, if_pos ⟨hterm, hgt⟩]
    refine ⟨hj, ?_⟩
    unfold cleanupReg
    rw [hj]
    simp [cleanupReg]

/-- A done job stamped half an hour ago, for the C3 amended witness. -/
def c3WJob : Job :=
  { status := some .done, outputPath := some "out-w.mp4", createdAt := some 100000 }

/-- Witness for the amended C3 at concrete times (anchor 100000 ms, sweep at
2000000 ms: 1900000 ms > 30 min, so the job is purged). -/
theorem reaper_ttl_spec_witness :
    (c3WJob.createdAt = some 100000 ∧ (100000 : ℚ) ≠ 0)
    ∧ ((∀ (now2 : ℚ) (j2 : Job), j2.status ≠ some .done → j2.status ≠ some .error
          → reapJob now2 j2 ≠ none)
      ∧ ((2000000 : ℚ) - 100000 ≤ 30 * 60 * 1000
          → cleanupReg 2000000 [("x", c3WJob)]
              = ([("x", { c3WJob with createdAt := some 100000 })], []))
      ∧ ((c3WJob.status = some .done ∨ c3WJob.status = some .error)
          → (2000000 : ℚ) - 100000 > 30 * 60 * 1000
          → reapJob 2000000 c3WJob = none
            ∧ cleanupReg 2000000 [("x", c3WJob)] = ([], unlinkTargets c3WJob))
      ∧ cleanupIntervalMs = 5 * 60 * 1000) :=
  ⟨⟨rfl, by norm_num⟩, reaper_ttl_spec 2000000 100000 c3WJob "x" rfl (by norm_num)⟩

/-- A running job with an output path on disk, for the C3 counterexample. -/
def c3Job0 : Job :=
  { status := some .running, percent := some 42, outputPath := some "out-j.mp4" }

/-- Initial system for the C3 counterexample. -/
def c3Sys0 : Sys := { reg := [("j", c3Job0)], files := ["out-j.mp4"] }

/-- Timeline for the C3 counterexample: a reaper tick at 1000000 ms while the
job is still running (stamping `createdAt`), the terminal `done` patch at
2740000 ms, and a reaper tick at 3100000 ms — only 6 minutes after the job
was stamped terminal. -/
def c3Events : List (ℚ × Ev) :=
  [(1000000, .tick), (2740000, .patch "j" (donePatch 12345)), (3100000, .tick)]

/-- State after the first tick: `createdAt` stamped while still running. -/
def c3Sys1 : Sys :=
  { reg := [("j", { c3Job0 with createdAt := some 1000000 })], files := ["out-j.mp4"] }

/-- The job after the `done` patch merges over the stamped record. -/
def c3Job2 : Job :=
  { status := some .done, percent := some 100, message := some "Done ✅"
    outputPath := some "out-j.mp4", outputBytes := some 12345, createdAt := some 1000000 }

/-- State after the terminal patch at 2740000 ms. -/
def c3Sys2 : Sys := { reg := [("j", c3Job2)], files := ["out-j.mp4"] }

/-- C3 is false as stated: in this trace the job is purged (record removed,
output file gone) at a tick only 360000 ms = 6 minutes after it was stamped
terminal, although the claim says a terminal job younger than 30 minutes is
retained with its output intact. -/
theorem reaper_purges_young_terminal_counterexample :
    (runEvents c3Sys0 c3Events).reg = []
    ∧ (runEvents c3Sys0 c3Events).files = []
    ∧ ((3100000 : ℚ) - 2740000 < 30 * 60 * 1000) := by
  have h1 : stepEv c3Sys0 (1000000, .tick) = c3Sys1 := by
    unfold stepEv cleanupReg cleanupReg reapJob c3Sys0 c3Sys1
    norm_num [c3Job0]
  have h2 : stepEv c3Sys1 ((2740000 : ℚ), .patch "j" (donePatch 12345)) = c3Sys2 := by
    unfold stepEv setJobReg c3Sys1 c3Sys2 c3Job2
    norm_num [applyPatch, mergeField, donePatch, c3Job0]
  have h3 : stepEv c3Sys2 ((3100000 : ℚ), .tick) = { reg := [], files := [] } := by
    unfold stepEv cleanupReg cleanupReg reapJob c3Sys2 c3Job2
    norm_num [unlinkTargets, List.filter, List.contains]
    decide
  have hrun : runEvents c3Sys0 c3Events = { reg := [], files := [] } := by
    unfold runEvents c3Events
    rw [List.foldl_cons, h1, List.foldl_cons, h2, List.foldl_cons, h3, List.foldl_nil]
  rw [hrun]
  norm_num
